import Mathlib

/-!
Verification of the schema-generation core of the
`laravel-task-master-mcp-toolkit` repository
(`src/servers/schema-generation/schema-generator.mjs`: the
`TaskMasterSchemaGenerator` class, and the MCP-server helper methods
`checkFreshness` / `shouldAutoUpdate` in the same module).

The JavaScript code is shallowly embedded: JavaScript strings become
Lean `String` (operating on the underlying `List Char`), JavaScript
numbers become `ℚ` (with an explicit `nan` marker where `NaN` can
arise), file-system and `JSON.parse` / `yaml.load` / `Date` externals
become explicit environment records, and `throw`/`catch` becomes
`Except`.
-/

namespace SchemaGen

/-! ## JavaScript string primitives (modelled on `List Char`) -/

/-- Does `s` start with `pat` (JS `String.prototype.startsWith`, used to
model anchored regex matching)? -/
def listStarts : List Char → List Char → Bool
  | [], _ => true
  | _ :: _, [] => false
  | p :: ps, c :: cs => (p == c) && listStarts ps cs

/-- Does `pat` occur as a contiguous substring of `s` (JS
`String.prototype.includes` / an unanchored regex literal)? -/
def listInfix (pat : List Char) : List Char → Bool
  | [] => pat.isEmpty
  | c :: cs => listStarts pat (c :: cs) || listInfix pat cs

/-- JS `s.includes(pat)`. -/
def strContains (s pat : String) : Bool := listInfix pat.data s.data

/-- JS `s.endsWith(pat)` (models the regex `pat$`). -/
def strEndsWith (s pat : String) : Bool := listStarts pat.data.reverse s.data.reverse

/-- JS `s.length` (code-unit count; all characters in the embedded data
are in the basic plane, where Lean codepoints and JS code units agree). -/
def strLen (s : String) : Nat := s.data.length

/-- JS `s.substring(0, n)`. -/
def strTake (s : String) (n : Nat) : String := ⟨s.data.take n⟩

/-! ## `shouldAutoUpdate` (MCP server, schema-generator module)

The task-type table `schemaAffectingTasks` is a JS object literal keyed
by the task-type string; property lookup is modelled by a string match.
Confidences are the JS number literals, as rationals. -/

/-- The `schemaAffectingTasks` table of `shouldAutoUpdate`: task type →
(affected schemas, confidence). -/
def schemaAffectingTasks : String → Option (List String × ℚ)
  | "database" => some (["database"], 9/10)
  | "migration" => some (["database"], 95/100)
  | "model" => some (["database", "businessLogic"], 8/10)
  | "controller" => some (["api", "businessLogic"], 8/10)
  | "api" => some (["api"], 9/10)
  | "route" => some (["api"], 9/10)
  | "middleware" => some (["api", "businessLogic"], 7/10)
  | "service" => some (["businessLogic"], 6/10)
  | "config" => some (["componentArchitecture"], 5/10)
  | "test" => some ([], 1/10)
  | _ => none

/-- Semantics of the path regexes in `schemaAffectingFiles`: each is
either an unanchored substring test or a `$`-anchored suffix test. -/
inductive PathPattern where
  | containsSeg (s : String)
  | endsWithSeg (s : String)
deriving DecidableEq, Repr

/-- JS `pattern.test(file)`. -/
def patTest : PathPattern → String → Bool
  | .containsSeg s, file => strContains file s
  | .endsWithSeg s, file => strEndsWith file s

/-- One entry of the `schemaAffectingFiles` rule table. -/
structure FilePattern where
  pattern : PathPattern
  schemas : List String
  confidence : ℚ
deriving DecidableEq, Repr

/-- The `schemaAffectingFiles` rule table of `shouldAutoUpdate`. -/
def schemaAffectingFiles : List FilePattern :=
  [ ⟨.containsSeg "database/migrations/", ["database"], 95/100⟩,
    ⟨.containsSeg "app/Models/", ["database", "businessLogic"], 8/10⟩,
    ⟨.containsSeg "app/Http/Controllers/", ["api", "businessLogic"], 8/10⟩,
    ⟨.containsSeg "routes/", ["api"], 9/10⟩,
    ⟨.containsSeg "app/Http/Middleware/", ["api", "businessLogic"], 7/10⟩,
    ⟨.containsSeg "app/Services/", ["businessLogic"], 6/10⟩,
    ⟨.endsWithSeg "composer.json", ["componentArchitecture"], 6/10⟩,
    ⟨.containsSeg "config/", ["componentArchitecture"], 4/10⟩ ]

/-- The `UpdateRecommendation` record returned by `shouldAutoUpdate`. -/
structure UpdateRec where
  required : Bool
  reason : String
  confidence : ℚ
  affectedSchemas : List String
deriving DecidableEq, Repr

/-- The initial value of the `updateRecommendation` variable. -/
def defaultRec : UpdateRec :=
  ⟨false, "No schema-affecting changes detected", 0, []⟩

/-- JS `Set.prototype.add`: append if not already present (insertion
order preserved, as `Array.from` of a `Set` observes it). -/
def addUnique (l : List String) (x : String) : List String :=
  if x ∈ l then l else l ++ [x]

/-- Accumulator of the changed-files loop of `shouldAutoUpdate`:
`maxConfidence`, `allAffectedSchemas` (insertion-ordered set), `reasons`. -/
structure FileScanAcc where
  maxConf : ℚ
  schemas : List String
  reasons : List String
deriving DecidableEq, Repr

/-- The inner pattern loop of `shouldAutoUpdate` for one changed file. -/
def scanFileStep (acc : FileScanAcc) (file : String) : FileScanAcc :=
  schemaAffectingFiles.foldl
    (fun a fp =>
      if patTest fp.pattern file then
        { maxConf := max a.maxConf fp.confidence,
          schemas := fp.schemas.foldl addUnique a.schemas,
          reasons := a.reasons ++ [file ++ " affects " ++ String.intercalate ", " fp.schemas] }
      else a)
    acc

/-- The whole changed-files loop of `shouldAutoUpdate`. -/
def fileScan (changedFiles : List String) : FileScanAcc :=
  changedFiles.foldl scanFileStep ⟨0, [], []⟩

/-- The recommendation seeded from the task-type table (the state of
`updateRecommendation` after the `schemaAffectingTasks[taskType]` check). -/
def taskSeed (taskType : String) : UpdateRec :=
  match schemaAffectingTasks taskType with
  | some ts =>
      ⟨decide (ts.2 > 1/2),
       "Task type '" ++ taskType ++ "' affects schemas: " ++ String.intercalate ", " ts.1,
       ts.2, ts.1⟩
  | none => defaultRec

/-- `shouldAutoUpdate(taskType, changedFiles)` (the `generator` argument
of the JS method is unused by its body and omitted). -/
def shouldAutoUpdate (taskType : String) (changedFiles : List String) : UpdateRec :=
  let updateRecommendation := taskSeed taskType
  if 0 < changedFiles.length then
    let acc := fileScan changedFiles
    if acc.maxConf > updateRecommendation.confidence then
      ⟨decide (acc.maxConf > 1/2), String.intercalate "; " acc.reasons,
       acc.maxConf, acc.schemas⟩
    else updateRecommendation
  else updateRecommendation

/-! ## JavaScript values

Results of the external `JSON.parse` / `yaml.load` collaborators, as far
as the embedded code observes them: strings, objects, `null`, and
`undefined` (for absent properties). -/

inductive JValue where
  | null
  | undef
  | str (s : String)
  | obj (fields : List (String × JValue))

/-- JS truthiness of the values above (`""` is falsy, objects truthy). -/
def truthy : JValue → Bool
  | .null => false
  | .undef => false
  | .str s => !(s == "")
  | .obj _ => true

/-- JS property access `v.k` / `v[k]`: throws on `null`/`undefined`,
yields `undefined` for an absent property or a non-object receiver. -/
def jsProp : JValue → String → Except String JValue
  | .null, k => .error ("Cannot read properties of null (reading " ++ k ++ ")")
  | .undef, k => .error ("Cannot read properties of undefined (reading " ++ k ++ ")")
  | .str _, _ => .ok .undef
  | .obj fields, k => .ok ((List.lookup k fields).getD .undef)

/-- JS `v.k1 && v.k1.k2` (short-circuiting on a falsy `v.k1`). -/
def jsAndProp (v : JValue) (k1 k2 : String) : Except String JValue := do
  let a ← jsProp v k1
  if truthy a then jsProp a k2 else pure a

/-! ## `detectFramework` -/

/-- The `FrameworkInfo` record returned by `detectFramework`. `version`
is a JS value (a dependency-range string, the literal `"detected"`, or
`null`). -/
structure FrameworkInfo where
  ftype : String
  version : JValue
  error : Option String := none

/-- Environment of `detectFramework`: `fexists` is the `fileExists`
helper (which catches internally and returns a boolean), `read` is
`fs.readFile` on a project-root-relative path (`.error` = throw),
`jparse` is the external `JSON.parse` (`.error` = throw). -/
structure DetectEnv where
  fexists : String → Bool
  read : String → Except String String
  jparse : String → Except String JValue

/-- `extractLaravelVersion(composerContent)`:
`(composer.require && composer.require['laravel/framework']) || 'unknown'`
with its own try/catch around `JSON.parse`. -/
def extractLaravelVersion (env : DetectEnv) (content : String) : JValue :=
  match env.jparse content with
  | .error _ => .str "unknown"
  | .ok composer =>
    match jsProp composer "require" with
    | .error _ => .str "unknown"
    | .ok req =>
      if truthy req then
        match jsProp req "laravel/framework" with
        | .error _ => .str "unknown"
        | .ok v => if truthy v then v else .str "unknown"
      else .str "unknown"

/-- The Rails/Django/Express/unknown checks of `detectFramework` (the
control flow after the Laravel branch has fallen through). -/
def detectRest (env : DetectEnv) : Except String FrameworkInfo :=
  if env.fexists "Gemfile" && env.fexists "config/application.rb" then
    .ok ⟨"rails", .str "detected", none⟩
  else if env.fexists "manage.py" && env.fexists "requirements.txt" then
    .ok ⟨"django", .str "detected", none⟩
  else if env.fexists "package.json" then
    match env.read "package.json" with
    | .error e => .error e
    | .ok packageContent =>
      match env.jparse packageContent with
      | .error e => .error e
      | .ok pkg =>
        match jsAndProp pkg "dependencies" "express" with
        | .error e => .error e
        | .ok dep =>
          if truthy dep then .ok ⟨"express", dep, none⟩
          else
            match jsAndProp pkg "devDependencies" "express" with
            | .error e => .error e
            | .ok dev =>
              if truthy dev then .ok ⟨"express", dev, none⟩
              else .ok ⟨"unknown", .null, none⟩
  else .ok ⟨"unknown", .null, none⟩

/-- Body of the `try` block of `detectFramework` (`.error` = a thrown
internal I/O/JSON failure, handled by the surrounding catch). -/
def detectFrameworkBody (env : DetectEnv) : Except String FrameworkInfo :=
  if env.fexists "artisan" && env.fexists "composer.json" then
    match env.read "composer.json" with
    | .error e => .error e
    | .ok composerContent =>
      if strContains composerContent "laravel/framework" then
        .ok ⟨"laravel", extractLaravelVersion env composerContent, none⟩
      else detectRest env
  else detectRest env

/-- `detectFramework()`: the try/catch wrapper. -/
def detectFramework (env : DetectEnv) : FrameworkInfo :=
  match detectFrameworkBody env with
  | .ok r => r
  | .error e => ⟨"unknown", .null, some e⟩

/-- A project root with no files at all (every `fileExists` false, every
read throwing). -/
def emptyDetectEnv : DetectEnv :=
  ⟨fun _ => false, fun _ => .error "ENOENT", fun _ => .error "parse error"⟩

/-- A project root where `package.json` exists but reading it throws. -/
def failingDetectEnv : DetectEnv :=
  ⟨fun p => p == "package.json", fun _ => .error "EIO", fun _ => .error "parse error"⟩

/-- A Laravel project root: `artisan` and `composer.json` exist, the
composer content mentions `laravel/framework`, and `JSON.parse` yields a
`require` map with `laravel/framework` pinned to `^10.0`. -/
def laravelComposerContent : String :=
  "require laravel/framework ^10.0"

def laravelDetectEnv : DetectEnv :=
  ⟨fun p => (p == "artisan") || (p == "composer.json"),
   fun _ => .ok laravelComposerContent,
   fun _ => .ok (.obj [("require", .obj [("laravel/framework", .str "^10.0")])])⟩

/-! ## `saveSchemas`: the history ledger -/

/-- One entry of the history ledger (`history/changes.yml`). -/
structure HistoryEntry where
  timestamp : String
  version : String
  framework : JValue
  schemas : List String
  changeLog : String

/-- The ledger update inside `saveSchemas`: read the existing ledger
(`none` models a missing, unparsable, or null file, caught and treated
as the empty list), `unshift` the new entry, `slice(0, 50)`, rewrite. -/
def updateHistory (old : Option (List HistoryEntry)) (e : HistoryEntry) : List HistoryEntry :=
  (e :: old.getD []).take 50

/-- N successive `save()` calls starting from ledger state `init`. -/
def runSaves (init : List HistoryEntry) (es : List HistoryEntry) : List HistoryEntry :=
  es.foldl (fun l e => updateHistory (some l) e) init

/-- 51 distinct history entries (for exercising the length bound). -/
def es51 : List HistoryEntry :=
  (List.range 51).map (fun n => ⟨toString n, "v", .null, [], "log"⟩)

/-! ## `scanDirectory` (the structural scanner)

The file system seen by one `scanDirectory` call is a finite tree:
a directory may be missing (`fileExists` false), unreadable (`readdir`
throws), or a list of named entries; each entry is a file (whose
read+stat either yields decoded content and an mtime, or throws) or a
subdirectory. -/

/-- A `FileRecord` as built by `scanDirectory`. -/
structure FileRecord where
  path : String
  size : Nat
  lastModified : Nat
  content : String
deriving DecidableEq, Repr

mutual
inductive FTree where
  | missing
  | unreadable (msg : String)
  | dirOk (entries : Entries)
inductive Entries where
  | nil
  | cons (name : String) (node : FNode) (rest : Entries)
inductive FNode where
  | file (data : Except String (String × Nat))
  | subdir (t : FTree)
end

/- Output mapping of `scanDirectory`: name → FileRecord, `{error: msg}`
object (one unreadable file), plain string value (the top-level
`{error}` of an unreadable directory), or nested mapping. -/
mutual
inductive ScanEntry where
  | fileRec (r : FileRecord)
  | errObj (msg : String)
  | errStr (msg : String)
  | sub (m : ScanMap)
inductive ScanMap where
  | nil
  | cons (name : String) (e : ScanEntry) (rest : ScanMap)
end

/-- JS `Object.keys(m).length > 0` negated. -/
def ScanMap.isEmpty : ScanMap → Bool
  | .nil => true
  | .cons _ _ _ => false

/-- The extension filter: `extension === '' || entry.name.endsWith(extension)`. -/
def extMatches (ext name : String) : Bool :=
  (ext == "") || strEndsWith name ext

mutual
/-- `scanDirectory(dirPath, extension)` on the given directory tree. -/
def scanTree (ext dirPath : String) : FTree → ScanMap
  | .missing => .nil
  | .unreadable msg => .cons "error" (.errStr msg) .nil
  | .dirOk entries => scanEntries ext dirPath entries

/-- The entry loop of `scanDirectory`. -/
def scanEntries (ext dirPath : String) : Entries → ScanMap
  | .nil => .nil
  | .cons name (.file data) rest =>
      if extMatches ext name then
        match data with
        | .ok (content, mtime) =>
            .cons name
              (.fileRec ⟨dirPath ++ "/" ++ name, strLen content, mtime, strTake content 5000⟩)
              (scanEntries ext dirPath rest)
        | .error msg => .cons name (.errObj msg) (scanEntries ext dirPath rest)
      else scanEntries ext dirPath rest
  | .cons name (.subdir t) rest =>
      let subFiles := scanTree ext (dirPath ++ "/" ++ name) t
      if subFiles.isEmpty then scanEntries ext dirPath rest
      else .cons name (.sub subFiles) (scanEntries ext dirPath rest)
end

mutual
/-- All `FileRecord`s in a scan entry (recursing into sub-mappings). -/
def ScanEntry.records : ScanEntry → List FileRecord
  | .fileRec r => [r]
  | .errObj _ => []
  | .errStr _ => []
  | .sub m => m.records

/-- All `FileRecord`s in a scan result. -/
def ScanMap.records : ScanMap → List FileRecord
  | .nil => []
  | .cons _ e rest => e.records ++ rest.records
end

/-- `r` is a record built by the scanner from some original content. -/
def RecordSpec (r : FileRecord) : Prop :=
  ∃ orig : String, r.content = strTake orig 5000 ∧ r.size = strLen orig

/-- On-disk byte count of a file whose decoded (UTF-8) content is `s`. -/
def diskBytes (s : String) : Nat :=
  s.data.foldl (fun n c => n + c.utf8Size) 0

/-- A one-file directory with plain ASCII content. -/
def asciiTree : FTree :=
  .dirOk (.cons "m.php" (.file (.ok ("hello", 7))) .nil)

/-- Another one-file directory with plain ASCII content. -/
def asciiTree2 : FTree :=
  .dirOk (.cons "b.php" (.file (.ok ("abc", 3))) .nil)

/-- A one-file directory whose file content holds a two-byte character. -/
def accentTree : FTree :=
  .dirOk (.cons "a.php" (.file (.ok ("é", 0))) .nil)

/-! ## `extractPhpTraits`

The regex `/use\s+([^;]+);/g` is modelled segment-wise: a match never
crosses a `;` (the `[^;]+` body runs up to the next `;`, which the match
consumes), so global scanning finds, in each `;`-terminated segment, the
first `use` + whitespace occurrence with a nonempty remainder. The
per-match processing `replace(/use\s+/, '').replace(';', '').trim()`
strips the leading `use` plus the whole greedy whitespace run and the
final `;`. -/

/-- JS `\s` on the characters that occur in source text. -/
def jsWS (c : Char) : Bool :=
  (c == ' ') || (c == '\t') || (c == '\n') || (c == '\r') || (c == '\x0b') || (c == '\x0c')

/-- JS `String.prototype.trim`. -/
def trimChars (l : List Char) : List Char :=
  ((l.dropWhile jsWS).reverse.dropWhile jsWS).reverse

/-- Split on every `;` (like `String.prototype.split(';')`): the last
part is the text after the final `;` (not `;`-terminated). -/
def splitOnSemi : List Char → List (List Char)
  | [] => [[]]
  | c :: cs =>
    let r := splitOnSemi cs
    if c = ';' then [] :: r
    else
      match r with
      | [] => [[c]]
      | s :: ss => (c :: s) :: ss

/-- First match of `use\s+([^;]+)` in a `;`-free segment that is
followed by a `;`: requires at least one whitespace character after
`use` and a nonempty body for some backtracking split, and returns the
segment remainder with the full greedy whitespace run dropped (what the
`replace`-processing of the match leaves). A failed `use` literal
cannot overlap a later match start, so scanning resumes after it. -/
def firstUseTarget : List Char → Option (List Char)
  | 'u' :: 's' :: 'e' :: rest =>
    let n := (rest.takeWhile jsWS).length
    if 1 ≤ n && 2 ≤ rest.length then some (rest.drop n)
    else firstUseTarget rest
  | _ :: cs => firstUseTarget cs
  | [] => none

/-- The successive `use …;` match bodies of the global regex over the
whole content (one per `;`-terminated segment at most). -/
def findUses (l : List Char) : List (List Char) :=
  ((splitOnSemi l).dropLast).filterMap firstUseTarget

/-- The trimmed per-match names, before the filter. -/
def rawTraitTargets (content : String) : List String :=
  (findUses content.data).map (fun l => String.mk (trimChars l))

/-- The filter applied to each extracted name:
`traitName && !traitName.includes('\\Http\\') &&
!traitName.includes('function') && traitName.includes('\\')`. -/
def traitFilter (t : String) : Bool :=
  (!(t == "")) && (!strContains t "\\Http\\") && (!strContains t "function") &&
    strContains t "\\"

/-- `extractPhpTraits(content)`. -/
def extractPhpTraits (content : String) : List String :=
  (rawTraitTargets content).filter traitFilter

/-! ## `generateSchemas` (the schema assembler)

The four Laravel document generators each catch their own extraction
errors and always return a document; they are abstracted as opaque
environment values. The Rails/Django/Express/generic generators return
the literal stub documents of the source. -/

/-- The four documents the Laravel generators would produce. -/
structure GenEnv where
  laravelDatabase : JValue
  laravelApi : JValue
  laravelBusinessLogic : JValue
  laravelComponentArchitecture : JValue

/-- A stub schema document `{type, framework, note}`. -/
def pendingDoc (dtype fw note : String) : JValue :=
  .obj [("type", .str dtype), ("framework", .str fw), ("note", .str note)]

def generateLaravelSchemas (env : GenEnv) : List (String × JValue) :=
  [("database", env.laravelDatabase),
   ("api", env.laravelApi),
   ("businessLogic", env.laravelBusinessLogic),
   ("componentArchitecture", env.laravelComponentArchitecture)]

def generateRailsSchemas : List (String × JValue) :=
  [("database", pendingDoc "database" "rails" "Rails schema generation implementation pending"),
   ("api", pendingDoc "api" "rails" "Rails API schema generation implementation pending"),
   ("businessLogic", pendingDoc "business_logic" "rails" "Rails business logic schema generation implementation pending"),
   ("componentArchitecture", pendingDoc "component_architecture" "rails" "Rails component schema generation implementation pending")]

def generateDjangoSchemas : List (String × JValue) :=
  [("database", pendingDoc "database" "django" "Django schema generation implementation pending"),
   ("api", pendingDoc "api" "django" "Django API schema generation implementation pending"),
   ("businessLogic", pendingDoc "business_logic" "django" "Django business logic schema generation implementation pending"),
   ("componentArchitecture", pendingDoc "component_architecture" "django" "Django component schema generation implementation pending")]

def generateExpressSchemas : List (String × JValue) :=
  [("database", pendingDoc "database" "express" "Express schema generation implementation pending"),
   ("api", pendingDoc "api" "express" "Express API schema generation implementation pending"),
   ("businessLogic", pendingDoc "business_logic" "express" "Express business logic schema generation implementation pending"),
   ("componentArchitecture", pendingDoc "component_architecture" "express" "Express component schema generation implementation pending")]

def generateGenericSchemas : List (String × JValue) :=
  [("database", pendingDoc "database" "unknown" "Framework-agnostic schema generation implementation pending"),
   ("api", pendingDoc "api" "unknown" "Framework-agnostic API schema generation implementation pending"),
   ("businessLogic", pendingDoc "business_logic" "unknown" "Framework-agnostic business logic schema generation implementation pending"),
   ("componentArchitecture", pendingDoc "component_architecture" "unknown" "Framework-agnostic component schema generation implementation pending")]

/-- The `schemas.metadata` document added by `generateSchemas`. -/
def metadataDoc (fw : FrameworkInfo) (timestamp projectRoot : String) : JValue :=
  .obj [("framework",
          .obj ([("type", .str fw.ftype), ("version", fw.version)] ++
            (match fw.error with
             | some e => [("error", .str e)]
             | none => []))),
        ("generatedAt", .str timestamp),
        ("version", .str "1.0.0"),
        ("projectRoot", .str projectRoot)]

/-- `generateSchemas(framework)`: resolve the framework (the argument
wins over detection), dispatch on its `type` string, then append the
metadata document; the result's key order is the object-literal
insertion order. -/
def generateSchemas (denv : DetectEnv) (genv : GenEnv) (timestamp projectRoot : String)
    (framework : Option FrameworkInfo) : List (String × JValue) :=
  let detectedFramework := framework.getD (detectFramework denv)
  let schemas :=
    match detectedFramework.ftype with
    | "laravel" => generateLaravelSchemas genv
    | "rails" => generateRailsSchemas
    | "django" => generateDjangoSchemas
    | "express" => generateExpressSchemas
    | _ => generateGenericSchemas
  schemas ++ [("metadata", metadataDoc detectedFramework timestamp projectRoot)]

/-- Laravel generator outputs for a run where nothing was extracted. -/
def trivialGenEnv : GenEnv := ⟨.null, .null, .null, .null⟩

/-! ## `getSchemaInfo` / `listSchemaVersions` / `checkFreshness` -/

/-- Environment of `getSchemaInfo`: the metadata read, the external
`yaml.load`, and the two directory listings. -/
structure InfoEnv where
  readMetadata : Except String String
  yamlLoad : String → Except String JValue
  versionsDirList : Except String (List String)
  currentDirList : Except String (List String)
  schemaDir : String

/-- `listSchemaVersions()`: `readdir`, default lexicographic
`Array.prototype.sort`, then `reverse` (latest first); an error yields
`[]`. -/
def listSchemaVersions (env : InfoEnv) : List String :=
  match env.versionsDirList with
  | .ok versions => (List.insertionSort (fun a b => a ≤ b) versions).reverse
  | .error _ => []

/-- JS `s.replace(pat, '')`: remove the first occurrence of `pat`. -/
def replaceOnceChars (pat : List Char) : List Char → List Char
  | [] => []
  | c :: cs =>
    if listStarts pat (c :: cs) then (c :: cs).drop pat.length
    else c :: replaceOnceChars pat cs

def strReplaceOnce (s pat : String) : String := ⟨replaceOnceChars pat.data s.data⟩

/-- The result record of `getSchemaInfo` (`current`/`availableSchemas`/
`versions` are absent — `undefined` / empty — on the failure path). -/
structure SchemaInfo where
  success : Bool
  current : JValue
  availableSchemas : List String
  versions : List String
  error : Option String
  location : String

/-- `getSchemaInfo()`: read and parse `current/metadata.yml`, list
versions and current schemas; any throw inside is caught and reported
as `{success: false, error}`. -/
def getSchemaInfo (env : InfoEnv) : SchemaInfo :=
  match env.readMetadata with
  | .error e => ⟨false, .undef, [], [], some e, env.schemaDir⟩
  | .ok metadataContent =>
    match env.yamlLoad metadataContent with
    | .error e => ⟨false, .undef, [], [], some e, env.schemaDir⟩
    | .ok metadata =>
      let versions := listSchemaVersions env
      match env.currentDirList with
      | .error e => ⟨false, .undef, [], [], some e, env.schemaDir⟩
      | .ok schemas =>
        ⟨true, metadata,
         (schemas.filter (fun f => strEndsWith f "-schema.yml")).map
           (fun f => strReplaceOnce f "-schema.yml"),
         versions.take 10, none, env.schemaDir⟩

/-- A JS number that may be `NaN` (an invalid `Date`). -/
inductive JSNum where
  | nan
  | num (q : ℚ)
deriving DecidableEq

/-- JS `<` against a plain number (`NaN < x` is false). -/
def jslt (a : JSNum) (m : ℚ) : Bool :=
  match a with
  | .nan => false
  | .num q => decide (q < m)

/-- `Math.round(x * 10) / 10`. -/
def roundTenth : JSNum → JSNum
  | .nan => .nan
  | .num q => .num (⌊q * 10 + 1/2⌋ / 10)

/-- Environment of `checkFreshness`: `getSchemaInfo`'s environment,
`Date.now()`, and `new Date(v).getTime()` for the parsed value. -/
structure FreshEnv where
  ienv : InfoEnv
  nowMs : ℚ
  dateParse : JValue → JSNum

/-- The result record of `checkFreshness`. -/
structure FreshResult where
  isFresh : Bool
  reason : String
  lastGenerated : JValue
  ageMinutes : Option JSNum

/-- `checkFreshness(maxAgeMinutes)` (MCP server helper). -/
def checkFreshness (env : FreshEnv) (maxAgeMinutes : ℚ) : FreshResult :=
  let info := getSchemaInfo env.ienv
  if !info.success || !truthy info.current then
    ⟨false, "No schemas exist", .null, none⟩
  else
    match jsProp info.current "generatedAt" with
    | .error e => ⟨false, "Error checking freshness: " ++ e, .null, none⟩
    | .ok generatedAt =>
      let age : JSNum :=
        match env.dateParse generatedAt with
        | .nan => .nan
        | .num ms => .num ((env.nowMs - ms) / 60000)
      ⟨jslt age maxAgeMinutes,
       if jslt age maxAgeMinutes then "Schemas are fresh" else "Schemas are stale",
       generatedAt, some (roundTenth age)⟩

/-- A schema root whose `current/metadata.yml` does not exist. -/
def enoentInfoEnv : InfoEnv :=
  ⟨.error "ENOENT: no such file or directory", fun _ => .error "not reached",
   .error "ENOENT", .error "ENOENT", "/p/.taskmaster/schemas"⟩

/-- A schema root whose `current/metadata.yml` exists but cannot be
read. -/
def eaccesInfoEnv : InfoEnv :=
  ⟨.error "EACCES: permission denied", fun _ => .error "not reached",
   .error "EACCES", .error "EACCES", "/p/.taskmaster/schemas"⟩

def enoentFreshEnv : FreshEnv := ⟨enoentInfoEnv, 0, fun _ => .nan⟩

def eaccesFreshEnv : FreshEnv := ⟨eaccesInfoEnv, 0, fun _ => .nan⟩

/-- A schema root with fresh, readable metadata generated one minute
before now. -/
def freshInfoEnv : InfoEnv :=
  ⟨.ok "metadata yaml text",
   fun _ => .ok (.obj [("generatedAt", .str "2024-01-01T00:01:00.000Z")]),
   .ok [], .ok ["database-schema.yml"], "/p/.taskmaster/schemas"⟩

def freshFreshEnv : FreshEnv := ⟨freshInfoEnv, 120000, fun _ => .num 60000⟩

/-- A schema root whose versions archive holds twelve snapshots. -/
def manyVersionsInfoEnv : InfoEnv :=
  ⟨.ok "metadata yaml text",
   fun _ => .ok (.obj [("generatedAt", .str "2024-01-01T00:01:00.000Z")]),
   .ok ["v03", "v01", "v12", "v07", "v05", "v09", "v02", "v11", "v04", "v08", "v06", "v10"],
   .ok ["database-schema.yml", "metadata.yml"], "/p/.taskmaster/schemas"⟩

end SchemaGen

namespace SchemaGen

/-! ## Theorems -/

theorem taskSeed_conf_nonneg (t : String) : 0 ≤ (taskSeed t).confidence := by
  unfold taskSeed
  cases h : schemaAffectingTasks t with
  | none => simp [defaultRec]
  | some ts =>
      simp only
      unfold schemaAffectingTasks at h
      split at h <;> first
        | exact Option.noConfusion h
        | exact (Option.some.inj h) ▸ by norm_num

theorem fileScan_nil : fileScan [] = ⟨0, [], []⟩ := rfl

theorem scanFileStep_id (acc : FileScanAcc) (f : String)
    (h : ∀ p ∈ schemaAffectingFiles, patTest p.pattern f = false) :
    scanFileStep acc f = acc := by
  unfold scanFileStep
  generalize hl : schemaAffectingFiles = l at h ⊢
  clear hl
  induction l generalizing acc with
  | nil => rfl
  | cons p ps ih =>
      have hp : patTest p.pattern f = false := h p (List.mem_cons_self p ps)
      rw [List.foldl_cons, if_neg (by simp [hp])]
      exact ih acc (fun q hq => h q (List.mem_cons_of_mem p hq))

/-- **C1.** If the maximum confidence from the changed-files rule table
strictly exceeds the task-type confidence, `shouldAutoUpdate` returns
exactly the file-derived tuple (joined per-file reasons, the maximum
file confidence, the union of matched schema sets, required iff
confidence exceeds 0.5), with no field from the task-type tuple; and if
neither the task type nor any changed file matches anything, it returns
`{required: false, confidence: 0, affectedSchemas: []}`. -/
theorem C1_confidence_replacement (taskType : String) (changedFiles : List String) :
    ((fileScan changedFiles).maxConf > (taskSeed taskType).confidence →
      shouldAutoUpdate taskType changedFiles =
        ⟨decide ((fileScan changedFiles).maxConf > 1/2),
         String.intercalate "; " (fileScan changedFiles).reasons,
         (fileScan changedFiles).maxConf,
         (fileScan changedFiles).schemas⟩) ∧
    (schemaAffectingTasks taskType = none →
      (∀ f ∈ changedFiles, ∀ p ∈ schemaAffectingFiles, patTest p.pattern f = false) →
      shouldAutoUpdate taskType changedFiles = defaultRec) := by
  constructor
  · intro h
    unfold shouldAutoUpdate
    cases changedFiles with
    | nil =>
        exfalso
        rw [fileScan_nil] at h
        exact absurd (lt_of_le_of_lt (taskSeed_conf_nonneg taskType) h) (lt_irrefl 0)
    | cons f fs =>
        simp only [List.length_cons]
        rw [if_pos (Nat.succ_pos _)]
        rw [if_pos h]
  · intro htask hfiles
    have hseed : taskSeed taskType = defaultRec := by
      unfold taskSeed; rw [htask]
    have hscan : fileScan changedFiles = ⟨0, [], []⟩ := by
      unfold fileScan
      have : ∀ (l : List String), (∀ f ∈ l, ∀ p ∈ schemaAffectingFiles, patTest p.pattern f = false) →
          l.foldl scanFileStep ⟨0, [], []⟩ = ⟨0, [], []⟩ := by
        intro l
        induction l with
        | nil => intro _; rfl
        | cons f fs ih =>
            intro hl
            rw [List.foldl_cons, scanFileStep_id _ _ (hl f (by simp))]
            exact ih (fun g hg p hp => hl g (List.mem_cons_of_mem f hg) p hp)
      exact this changedFiles hfiles
    unfold shouldAutoUpdate
    rw [hseed, hscan]
    simp [defaultRec]

/-- Witness for C1: `taskType = "other"` (not in the table) with a
changed migration file exercises the replacement branch, and an
unmatched file exercises the default branch. -/
theorem C1_confidence_replacement_witness :
    (fileScan ["database/migrations/2024_01_01_create_x.php"]).maxConf >
      (taskSeed "other").confidence ∧
    shouldAutoUpdate "other" ["database/migrations/2024_01_01_create_x.php"] =
      ⟨true, "database/migrations/2024_01_01_create_x.php affects database",
       95/100, ["database"]⟩ ∧
    shouldAutoUpdate "other" ["README.md"] = defaultRec := by
  have hfs : fileScan ["database/migrations/2024_01_01_create_x.php"] =
      ⟨95/100, ["database"],
       ["database/migrations/2024_01_01_create_x.php affects database"]⟩ := by
    unfold fileScan scanFileStep
    simp only [schemaAffectingFiles, List.foldl_cons, List.foldl_nil,
      show patTest (PathPattern.containsSeg "database/migrations/")
        "database/migrations/2024_01_01_create_x.php" = true from by decide,
      show patTest (PathPattern.containsSeg "app/Models/")
        "database/migrations/2024_01_01_create_x.php" = false from by decide,
      show patTest (PathPattern.containsSeg "app/Http/Controllers/")
        "database/migrations/2024_01_01_create_x.php" = false from by decide,
      show patTest (PathPattern.containsSeg "routes/")
        "database/migrations/2024_01_01_create_x.php" = false from by decide,
      show patTest (PathPattern.containsSeg "app/Http/Middleware/")
        "database/migrations/2024_01_01_create_x.php" = false from by decide,
      show patTest (PathPattern.containsSeg "app/Services/")
        "database/migrations/2024_01_01_create_x.php" = false from by decide,
      show patTest (PathPattern.endsWithSeg "composer.json")
        "database/migrations/2024_01_01_create_x.php" = false from by decide,
      show patTest (PathPattern.containsSeg "config/")
        "database/migrations/2024_01_01_create_x.php" = false from by decide,
      eq_self_iff_true, if_true, Bool.false_eq_true, if_false,
      addUnique, List.nil_append,
      max_eq_right (show (0 : ℚ) ≤ 95/100 by norm_num)]
    simp
    decide
  have ht : taskSeed "other" = defaultRec := by
    unfold taskSeed
    rw [show schemaAffectingTasks "other" = none from by decide]
  have hgt : (fileScan ["database/migrations/2024_01_01_create_x.php"]).maxConf >
      (taskSeed "other").confidence := by
    rw [hfs, ht]
    show (95/100 : ℚ) > (defaultRec).confidence
    norm_num [defaultRec]
  refine ⟨hgt, ?_, ?_⟩
  · have h := (C1_confidence_replacement "other"
      ["database/migrations/2024_01_01_create_x.php"]).1 hgt
    rw [h, hfs]
    simp only [UpdateRec.mk.injEq, decide_eq_true_eq]
    refine ⟨by norm_num, by decide, by norm_num, by decide⟩
  · exact (C1_confidence_replacement "other" ["README.md"]).2 (by decide) (by decide)

theorem take_cons_take (e : HistoryEntry) (l : List HistoryEntry) (n : Nat) :
    (e :: l.take (n + 1)).take (n + 1) = (e :: l).take (n + 1) := by
  rw [List.take_succ_cons, List.take_succ_cons, List.take_take,
      min_eq_left (Nat.le_succ n)]

theorem take_append_take (A B : List HistoryEntry) (n : Nat) :
    (A ++ B.take n).take n = (A ++ B).take n := by
  rw [List.take_append_eq_append_take, List.take_append_eq_append_take, List.take_take,
      min_eq_left (Nat.sub_le n A.length)]

theorem runSaves_cons_eq (es : List HistoryEntry) :
    ∀ (e : HistoryEntry) (init : List HistoryEntry),
      runSaves init (e :: es) = ((e :: es).reverse ++ init).take 50 := by
  induction es with
  | nil =>
      intro e init
      simp [runSaves, updateHistory]
  | cons e2 es2 ih =>
      intro e init
      have step : runSaves init (e :: e2 :: es2) =
          runSaves (updateHistory (some init) e) (e2 :: es2) := rfl
      rw [step, ih e2 (updateHistory (some init) e)]
      show ((e2 :: es2).reverse ++ (e :: init).take 50).take 50 = _
      rw [take_append_take, List.append_cons ((e2 :: es2).reverse) e init]
      congr 2
      simp

/-- **C2.** After each `save()` the history ledger has at most 50
entries and starts with the just-written entry; a missing or unparsable
existing ledger is treated as empty, so the first save yields `[e]`
rather than failing; from an empty start, after any sequence of saves
the ledger is exactly the newest-first reversal of the saves, truncated
to 50; and after more than 50 successive saves (from any starting
ledger) it holds exactly the 50 most recent entries, newest-first. -/
theorem C2_history_ledger_bound (old : Option (List HistoryEntry)) (e : HistoryEntry)
    (init : List HistoryEntry) (es : List HistoryEntry) :
    (updateHistory old e).length ≤ 50 ∧
    (updateHistory old e).head? = some e ∧
    updateHistory none e = [e] ∧
    runSaves [] es = es.reverse.take 50 ∧
    (50 < es.length →
      runSaves init es = es.reverse.take 50 ∧ (runSaves init es).length = 50) := by
  refine ⟨?_, ?_, rfl, ?_, ?_⟩
  · rw [updateHistory, List.length_take]
    exact min_le_left _ _
  · have h : ∀ (l : List HistoryEntry) (n : Nat),
        ((e :: l).take (n + 1)).head? = some e := by
      intro l n
      rw [List.take_succ_cons, List.head?_cons]
    exact h (old.getD []) 49
  · cases es with
    | nil => rfl
    | cons e1 es1 =>
        rw [runSaves_cons_eq es1 e1 [], List.append_nil]
  · intro hlen
    cases es with
    | nil => simp at hlen
    | cons e1 es1 =>
        have hrun := runSaves_cons_eq es1 e1 init
        have hlen50 : 50 ≤ ((e1 :: es1).reverse).length := by
          rw [List.length_reverse]
          exact Nat.le_of_lt hlen
        have heq : runSaves init (e1 :: es1) = ((e1 :: es1).reverse).take 50 := by
          rw [hrun, List.take_append_of_le_length hlen50]
        refine ⟨heq, ?_⟩
        rw [heq, List.length_take, List.length_reverse]
        exact min_eq_left (Nat.le_of_lt hlen)

/-- Witness for C2: 51 successive saves from the empty ledger leave
exactly the 50 most recent entries, newest-first. -/
theorem C2_history_ledger_bound_witness :
    50 < es51.length ∧
    runSaves [] es51 = es51.reverse.take 50 ∧ (runSaves [] es51).length = 50 := by
  have hlen : 50 < es51.length := by simp [es51]
  exact ⟨hlen,
    (C2_history_ledger_bound none ⟨"t", "v", .null, [], "log"⟩ [] es51).2.2.2.2 hlen⟩

theorem detectBody_ok_no_error (env : DetectEnv) (r : FrameworkInfo)
    (h : detectFrameworkBody env = .ok r) : r.error = none := by
  unfold detectFrameworkBody detectRest at h
  repeat' split at h
  all_goals simp_all
  all_goals (cases h; rfl)

/-- **C4.** `detect()` never throws: with no marker files at all it
returns `{type: unknown, version: null}` with no error field; an
internal I/O failure (a `.error` from the try-block body) degrades to
`{type: unknown, error: message}`; and every result that carries an
error message has type `unknown`. -/
theorem C4_detect_never_throws (env : DetectEnv) :
    ((∀ p, env.fexists p = false) → detectFramework env = ⟨"unknown", .null, none⟩) ∧
    (∀ e, detectFrameworkBody env = .error e →
      detectFramework env = ⟨"unknown", .null, some e⟩) ∧
    ((detectFramework env).error ≠ none → (detectFramework env).ftype = "unknown") := by
  refine ⟨?_, ?_, ?_⟩
  · intro h
    simp [detectFramework, detectFrameworkBody, detectRest, h]
  · intro e he
    unfold detectFramework
    rw [he]
  · intro herr
    unfold detectFramework at herr ⊢
    cases hb : detectFrameworkBody env with
    | ok r =>
        rw [hb] at herr
        exact absurd (detectBody_ok_no_error env r hb) herr
    | error e => rfl

/-- Witness for C4: a bare directory detects as unknown with no error;
a root whose `package.json` is present but unreadable degrades to
unknown with the thrown message. -/
theorem C4_detect_never_throws_witness :
    detectFramework emptyDetectEnv = ⟨"unknown", .null, none⟩ ∧
    detectFramework failingDetectEnv = ⟨"unknown", .null, some "EIO"⟩ :=
  ⟨(C4_detect_never_throws emptyDetectEnv).1 (fun _ => rfl),
   (C4_detect_never_throws failingDetectEnv).2.1 "EIO" rfl⟩

/-- **C5.** When `artisan` and `composer.json` both exist and the
composer content contains the token `laravel/framework`, `detect()`
returns type `laravel` with version `extractLaravelVersion(content)`;
that version is the `require['laravel/framework']` value parsed from the
content, and the string `"unknown"` when the JSON is unparsable or the
field is absent. -/
theorem C5_laravel_detection (env : DetectEnv) (c : String)
    (h1 : env.fexists "artisan" = true) (h2 : env.fexists "composer.json" = true)
    (h3 : env.read "composer.json" = .ok c)
    (h4 : strContains c "laravel/framework" = true) :
    detectFramework env = ⟨"laravel", extractLaravelVersion env c, none⟩ ∧
    (∀ e, env.jparse c = .error e → extractLaravelVersion env c = .str "unknown") ∧
    (∀ fields reqs s, env.jparse c = .ok (.obj fields) →
      List.lookup "require" fields = some (.obj reqs) →
      List.lookup "laravel/framework" reqs = some (.str s) → s ≠ "" →
      extractLaravelVersion env c = .str s) ∧
    (∀ fields reqs, env.jparse c = .ok (.obj fields) →
      List.lookup "require" fields = some (.obj reqs) →
      List.lookup "laravel/framework" reqs = none →
      extractLaravelVersion env c = .str "unknown") := by
  refine ⟨?_, ?_, ?_, ?_⟩
  · simp [detectFramework, detectFrameworkBody, h1, h2, h3, h4]
  · intro e he
    unfold extractLaravelVersion
    rw [he]
  · intro fields reqs s hp hreq hlf hs
    unfold extractLaravelVersion
    rw [hp]
    simp [jsProp, hreq, hlf, truthy, hs]
  · intro fields reqs hp hreq hlf
    unfold extractLaravelVersion
    rw [hp]
    simp [jsProp, hreq, hlf, truthy]

/-- Witness for C5: the spec's example project (`laravel/framework`
pinned to `^10.0` in `require`) detects as laravel with version
`^10.0`. -/
theorem C5_laravel_detection_witness :
    strContains laravelComposerContent "laravel/framework" = true ∧
    detectFramework laravelDetectEnv = ⟨"laravel", .str "^10.0", none⟩ := by
  have h := C5_laravel_detection laravelDetectEnv laravelComposerContent
    rfl rfl rfl (by decide)
  have hv := h.2.2.1 [("require", .obj [("laravel/framework", .str "^10.0")])]
    [("laravel/framework", .str "^10.0")] "^10.0" rfl rfl rfl (by decide)
  exact ⟨by decide, by rw [h.1, hv]⟩

mutual
theorem scanTree_records_spec : ∀ (ext dp : String) (t : FTree),
    ∀ r ∈ (scanTree ext dp t).records, RecordSpec r
  | ext, dp, .missing => by simp [scanTree, ScanMap.records]
  | ext, dp, .unreadable msg => by simp [scanTree, ScanMap.records, ScanEntry.records]
  | ext, dp, .dirOk es => by
      intro r hr
      simp only [scanTree] at hr
      exact scanEntries_records_spec ext dp es r hr

theorem scanEntries_records_spec : ∀ (ext dp : String) (es : Entries),
    ∀ r ∈ (scanEntries ext dp es).records, RecordSpec r
  | ext, dp, .nil => by simp [scanEntries, ScanMap.records]
  | ext, dp, .cons name (.file data) rest => by
      intro r hr
      cases data with
      | ok cm =>
          obtain ⟨content, mtime⟩ := cm
          simp only [scanEntries] at hr
          by_cases hm : extMatches ext name = true
          · rw [if_pos hm] at hr
            simp only [ScanMap.records, ScanEntry.records] at hr
            rcases List.mem_append.1 hr with h | h
            · rw [List.mem_singleton] at h
              subst h
              exact ⟨content, rfl, rfl⟩
            · exact scanEntries_records_spec ext dp rest r h
          · rw [if_neg hm] at hr
            exact scanEntries_records_spec ext dp rest r hr
      | error msg =>
          simp only [scanEntries] at hr
          by_cases hm : extMatches ext name = true
          · rw [if_pos hm] at hr
            simp only [ScanMap.records, ScanEntry.records] at hr
            rcases List.mem_append.1 hr with h | h
            · simp at h
            · exact scanEntries_records_spec ext dp rest r h
          · rw [if_neg hm] at hr
            exact scanEntries_records_spec ext dp rest r hr
  | ext, dp, .cons name (.subdir t) rest => by
      intro r hr
      simp only [scanEntries] at hr
      by_cases he : (scanTree ext (dp ++ "/" ++ name) t).isEmpty = true
      · rw [if_pos he] at hr
        exact scanEntries_records_spec ext dp rest r hr
      · rw [if_neg he] at hr
        simp only [ScanMap.records, ScanEntry.records] at hr
        rcases List.mem_append.1 hr with h | h
        · exact scanTree_records_spec ext (dp ++ "/" ++ name) t r h
        · exact scanEntries_records_spec ext dp rest r h
end

/-- **C6.** Every `FileRecord` built by the structural scan has content
of length at most 5000 (the truncation cap in `scanDirectory`), the
content is the 5000-character truncation of some original file content
whose full length is recorded in `size`, and when that original is
shorter than the cap the stored content is the original, exactly. -/
theorem C6_content_truncation (ext dp : String) (t : FTree) (r : FileRecord)
    (h : r ∈ (scanTree ext dp t).records) :
    strLen r.content ≤ 5000 ∧
    ∃ orig : String, r.content = strTake orig 5000 ∧ r.size = strLen orig ∧
      (strLen orig < 5000 → r.content = orig) := by
  obtain ⟨orig, hc, hs⟩ := scanTree_records_spec ext dp t r h
  refine ⟨?_, orig, hc, hs, ?_⟩
  · rw [hc]
    show (orig.data.take 5000).length ≤ 5000
    rw [List.length_take]
    exact min_le_left _ _
  · intro hlt
    rw [hc]
    show (⟨orig.data.take 5000⟩ : String) = orig
    rw [List.take_of_length_le (Nat.le_of_lt hlt)]

/-- Witness for C6: scanning a directory holding one short ASCII file
yields its record untruncated. -/
theorem C6_content_truncation_witness :
    ((⟨"app/Models/m.php", 5, 7, "hello"⟩ : FileRecord) ∈
      (scanTree ".php" "app/Models" asciiTree).records) ∧
    (strLen (⟨"app/Models/m.php", 5, 7, "hello"⟩ : FileRecord).content ≤ 5000 ∧
     ∃ orig : String,
       (⟨"app/Models/m.php", 5, 7, "hello"⟩ : FileRecord).content = strTake orig 5000 ∧
       (⟨"app/Models/m.php", 5, 7, "hello"⟩ : FileRecord).size = strLen orig ∧
       (strLen orig < 5000 →
         (⟨"app/Models/m.php", 5, 7, "hello"⟩ : FileRecord).content = orig)) := by
  have heq : (scanTree ".php" "app/Models" asciiTree).records =
      [⟨"app/Models/m.php", 5, 7, "hello"⟩] := by
    simp only [asciiTree, scanTree, scanEntries,
      show extMatches ".php" "m.php" = true from by decide, if_true,
      ScanMap.records, ScanEntry.records, List.append_nil]
    rw [show ("app/Models" ++ "/" ++ "m.php" : String) = "app/Models/m.php" from by decide,
        show strLen "hello" = 5 from by decide,
        show strTake "hello" 5000 = "hello" from by decide]
  have hmem : (⟨"app/Models/m.php", 5, 7, "hello"⟩ : FileRecord) ∈
      (scanTree ".php" "app/Models" asciiTree).records := by
    rw [heq]
    exact List.mem_singleton.2 rfl
  exact ⟨hmem, C6_content_truncation ".php" "app/Models" asciiTree _ hmem⟩

/-- **C8 counterexample.** A file whose decoded content is the one
two-byte character `é` is recorded with `size = 1` (the JS string
length of the decoded content, `content.length` in `scanDirectory`),
while its on-disk size is 2 bytes — so `FileRecord.size` is not the
size in bytes on disk. -/
theorem C8_size_counterexample :
    (scanTree ".php" "app/Models" accentTree).records =
      [⟨"app/Models/a.php", 1, 0, "é"⟩] ∧
    diskBytes "é" = 2 ∧ (1 : Nat) ≠ 2 := by
  refine ⟨?_, by decide, by decide⟩
  simp only [accentTree, scanTree, scanEntries,
    show extMatches ".php" "a.php" = true from by decide, if_true,
    ScanMap.records, ScanEntry.records, List.append_nil]
  rw [show ("app/Models" ++ "/" ++ "a.php" : String) = "app/Models/a.php" from by decide,
      show strLen "é" = 1 from by decide,
      show strTake "é" 5000 = "é" from by decide]

/-- **C8 (amended).** `FileRecord.size` is the character count of the
file's decoded content (JS `content.length`), which coincides with the
on-disk byte count only when every character is a single UTF-8 byte. -/
theorem C8_size_is_char_count (ext dp : String) (t : FTree) (r : FileRecord)
    (h : r ∈ (scanTree ext dp t).records) :
    ∃ orig : String, r.size = strLen orig ∧ r.content = strTake orig 5000 ∧
      ((∀ c ∈ orig.data, c.utf8Size = 1) → r.size = diskBytes orig) := by
  obtain ⟨orig, hc, hs⟩ := scanTree_records_spec ext dp t r h
  refine ⟨orig, hs, hc, ?_⟩
  intro hascii
  rw [hs]
  show orig.data.length = orig.data.foldl (fun n c => n + c.utf8Size) 0
  have key : ∀ (l : List Char) (acc : Nat), (∀ c ∈ l, c.utf8Size = 1) →
      l.foldl (fun n c => n + c.utf8Size) acc = acc + l.length := by
    intro l
    induction l with
    | nil => intro acc _; simp
    | cons c cs ih =>
        intro acc hl
        rw [List.foldl_cons, ih _ (fun d hd => hl d (List.mem_cons_of_mem c hd)),
            hl c (List.mem_cons_self c cs), List.length_cons]
        omega
  rw [key orig.data 0 hascii]
  omega

/-- Witness for the amended C8: an all-ASCII file's size equals both the
character count and the byte count. -/
theorem C8_size_is_char_count_witness :
    ((⟨"app/Models/b.php", 3, 3, "abc"⟩ : FileRecord) ∈
      (scanTree ".php" "app/Models" asciiTree2).records) ∧
    (∃ orig : String,
      (⟨"app/Models/b.php", 3, 3, "abc"⟩ : FileRecord).size = strLen orig ∧
      (⟨"app/Models/b.php", 3, 3, "abc"⟩ : FileRecord).content = strTake orig 5000 ∧
      ((∀ c ∈ orig.data, c.utf8Size = 1) →
        (⟨"app/Models/b.php", 3, 3, "abc"⟩ : FileRecord).size = diskBytes orig)) := by
  have heq : (scanTree ".php" "app/Models" asciiTree2).records =
      [⟨"app/Models/b.php", 3, 3, "abc"⟩] := by
    simp only [asciiTree2, scanTree, scanEntries,
      show extMatches ".php" "b.php" = true from by decide, if_true,
      ScanMap.records, ScanEntry.records, List.append_nil]
    rw [show ("app/Models" ++ "/" ++ "b.php" : String) = "app/Models/b.php" from by decide,
        show strLen "abc" = 3 from by decide,
        show strTake "abc" 5000 = "abc" from by decide]
  have hmem : (⟨"app/Models/b.php", 3, 3, "abc"⟩ : FileRecord) ∈
      (scanTree ".php" "app/Models" asciiTree2).records := by
    rw [heq]
    exact List.mem_singleton.2 rfl
  exact ⟨hmem, C8_size_is_char_count ".php" "app/Models" asciiTree2 _ hmem⟩

/-- **C9 counterexample.** The `use`-trait extractor on
`use App\Http\Controllers\Controller;` returns the empty list although
the target contains a namespace separator: the actual filter also
excludes any name containing `\Http\` (and any containing `function`),
so the filter is not exactly "contains a namespace separator". -/
theorem C9_trait_filter_counterexample :
    strContains "App\\Http\\Controllers\\Controller" "\\" = true ∧
    rawTraitTargets "use App\\Http\\Controllers\\Controller;" =
      ["App\\Http\\Controllers\\Controller"] ∧
    extractPhpTraits "use App\\Http\\Controllers\\Controller;" = [] := by
  refine ⟨by decide, by decide, by decide⟩

/-- **C9 (amended).** A `use X;` target is in the trait extractor's
result iff it is among the extracted raw targets and passes the actual
filter: nonempty, contains a namespace separator, and contains neither
`\Http\` nor `function`. -/
theorem C9_trait_filter_semantics (content t : String) :
    (t ∈ extractPhpTraits content ↔
      t ∈ rawTraitTargets content ∧ traitFilter t = true) ∧
    (traitFilter t = true ↔
      t ≠ "" ∧ strContains t "\\Http\\" = false ∧ strContains t "function" = false ∧
      strContains t "\\" = true) := by
  constructor
  · unfold extractPhpTraits
    exact List.mem_filter
  · unfold traitFilter
    simp [Bool.and_eq_true, Bool.not_eq_true', and_assoc]

/-- **C3.** A successful `generate()` always produces exactly the keys
`database`, `api`, `businessLogic`, `componentArchitecture`, `metadata`,
in that order, regardless of the resolved framework; and an unknown or
unimplemented framework type yields the four generic placeholder stub
documents plus metadata rather than a failure. -/
theorem C3_four_schema_keys (denv : DetectEnv) (genv : GenEnv) (ts pr : String)
    (fwArg : Option FrameworkInfo) :
    ((generateSchemas denv genv ts pr fwArg).map Prod.fst =
      ["database", "api", "businessLogic", "componentArchitecture", "metadata"]) ∧
    (∀ fw, fwArg = some fw →
      fw.ftype ∉ (["laravel", "rails", "django", "express"] : List String) →
      generateSchemas denv genv ts pr fwArg =
        generateGenericSchemas ++ [("metadata", metadataDoc fw ts pr)]) := by
  constructor
  · simp only [generateSchemas]
    split <;>
      simp [generateLaravelSchemas, generateRailsSchemas, generateDjangoSchemas,
        generateExpressSchemas, generateGenericSchemas]
  · intro fw hfw hne
    subst hfw
    unfold generateSchemas
    simp only [Option.getD_some]
    split <;> simp_all

/-- Witness for C3: generating for a forced unknown framework yields the
four stub keys plus metadata. -/
theorem C3_four_schema_keys_witness :
    ((generateSchemas emptyDetectEnv trivialGenEnv "2024-01-01T00:00:00.000Z" "/p"
        (some ⟨"unknown", .null, none⟩)).map Prod.fst =
      ["database", "api", "businessLogic", "componentArchitecture", "metadata"]) ∧
    generateSchemas emptyDetectEnv trivialGenEnv "2024-01-01T00:00:00.000Z" "/p"
        (some ⟨"unknown", .null, none⟩) =
      generateGenericSchemas ++
        [("metadata",
          metadataDoc ⟨"unknown", .null, none⟩ "2024-01-01T00:00:00.000Z" "/p")] := by
  have h := C3_four_schema_keys emptyDetectEnv trivialGenEnv "2024-01-01T00:00:00.000Z" "/p"
    (some ⟨"unknown", .null, none⟩)
  exact ⟨h.1, h.2 _ rfl (by decide)⟩

/-- **C7 counterexample.** An error reading the metadata file (here
`EACCES`) is routed through `getSchemaInfo`'s catch into its
`{success: false}` result, so `checkFreshness` reports the very same
`"No schemas exist"` reason as the no-metadata (`ENOENT`) case — the
reason string does not distinguish the two, contrary to the claim. -/
theorem C7_error_reason_counterexample :
    checkFreshness eaccesFreshEnv 60 = ⟨false, "No schemas exist", .null, none⟩ ∧
    (checkFreshness eaccesFreshEnv 60).reason = (checkFreshness enoentFreshEnv 60).reason :=
  ⟨rfl, rfl⟩

/-- **C7 (amended).** With current metadata present and parseable,
`isFresh` holds exactly when the age in minutes of `generatedAt`
relative to now is below `maxAgeMinutes` (and `lastGenerated` /
`ageMinutes` report the raw value and the rounded age); with no usable
metadata the result is exactly
`{isFresh: false, reason: "No schemas exist", lastGenerated: null,
ageMinutes: null}`; and an error reading metadata yields that same
record — `isFresh` false and no thrown exception, but a reason
indistinguishable from the no-metadata case. -/
theorem C7_freshness_semantics (env : FreshEnv) (maxAgeMinutes : ℚ) :
    (∀ gv ms, (getSchemaInfo env.ienv).success = true →
      truthy (getSchemaInfo env.ienv).current = true →
      jsProp (getSchemaInfo env.ienv).current "generatedAt" = .ok gv →
      env.dateParse gv = .num ms →
      ((checkFreshness env maxAgeMinutes).isFresh = true ↔
        (env.nowMs - ms) / 60000 < maxAgeMinutes) ∧
      (checkFreshness env maxAgeMinutes).lastGenerated = gv ∧
      (checkFreshness env maxAgeMinutes).ageMinutes =
        some (.num (⌊(env.nowMs - ms) / 60000 * 10 + 1/2⌋ / 10))) ∧
    ((getSchemaInfo env.ienv).success = false ∨
        truthy (getSchemaInfo env.ienv).current = false →
      checkFreshness env maxAgeMinutes = ⟨false, "No schemas exist", .null, none⟩) ∧
    (∀ e, env.ienv.readMetadata = .error e →
      checkFreshness env maxAgeMinutes = ⟨false, "No schemas exist", .null, none⟩) := by
  refine ⟨?_, ?_, ?_⟩
  · intro gv ms hsucc hcur hprop hdate
    have hcond : (!(getSchemaInfo env.ienv).success ||
        !truthy (getSchemaInfo env.ienv).current) = false := by
      rw [hsucc, hcur]
      rfl
    simp only [checkFreshness, hcond, Bool.false_eq_true, if_false, hprop, hdate,
      jslt, roundTenth]
    refine ⟨by rw [decide_eq_true_eq], ?_, ?_⟩ <;> first | rfl | trivial
  · intro h
    have hcond : (!(getSchemaInfo env.ienv).success ||
        !truthy (getSchemaInfo env.ienv).current) = true := by
      rcases h with h | h <;> rw [h] <;> simp
    simp only [checkFreshness, hcond, if_true]
  · intro e he
    have hcond : (!(getSchemaInfo env.ienv).success ||
        !truthy (getSchemaInfo env.ienv).current) = true := by
      simp [getSchemaInfo, he]
    simp only [checkFreshness, hcond, if_true]

/-- Witness for the amended C7: metadata generated one minute before now
is fresh with a 60-minute window, and an unreadable metadata file yields
the no-schemas record. -/
theorem C7_freshness_semantics_witness :
    (checkFreshness freshFreshEnv 60).isFresh = true ∧
    (checkFreshness freshFreshEnv 60).lastGenerated = .str "2024-01-01T00:01:00.000Z" ∧
    checkFreshness eaccesFreshEnv 60 = ⟨false, "No schemas exist", .null, none⟩ := by
  have h := (C7_freshness_semantics freshFreshEnv 60).1 (.str "2024-01-01T00:01:00.000Z")
    60000 rfl rfl rfl rfl
  refine ⟨h.1.2 (by norm_num [freshFreshEnv]), h.2.1,
    (C7_freshness_semantics eaccesFreshEnv 60).2.2 "EACCES: permission denied" rfl⟩

/-- **C10.** When `getSchemaInfo` succeeds, its `versions` field is the
first ten entries of the version-directory names sorted descending
(lexicographically largest first): at most ten entries, sorted
descending, and every omitted name is ≤ every reported one, even when
the archive holds more than ten snapshots. -/
theorem C10_versions_top_ten (env : InfoEnv) (mc : String) (metadata : JValue)
    (names cur : List String)
    (h1 : env.readMetadata = .ok mc) (h2 : env.yamlLoad mc = .ok metadata)
    (h3 : env.currentDirList = .ok cur) (h4 : env.versionsDirList = .ok names) :
    (getSchemaInfo env).versions =
      ((List.insertionSort (fun a b : String => a ≤ b) names).reverse).take 10 ∧
    (getSchemaInfo env).versions.length ≤ 10 ∧
    (getSchemaInfo env).versions.Sorted (fun a b : String => b ≤ a) ∧
    (∀ x ∈ names, x ∉ (getSchemaInfo env).versions →
      ∀ y ∈ (getSchemaInfo env).versions, x ≤ y) := by
  have heq : (getSchemaInfo env).versions =
      ((List.insertionSort (fun a b : String => a ≤ b) names).reverse).take 10 := by
    simp only [getSchemaInfo, h1, h2, h3, listSchemaVersions, h4]
  have hLsorted : ((List.insertionSort (fun a b : String => a ≤ b) names).reverse).Pairwise
      (fun a b : String => b ≤ a) := by
    rw [List.pairwise_reverse]
    exact List.sorted_insertionSort (fun a b : String => a ≤ b) names
  refine ⟨heq, ?_, ?_, ?_⟩
  · rw [heq, List.length_take]
    exact min_le_left _ _
  · rw [heq]
    exact List.Pairwise.sublist (List.take_sublist _ _) hLsorted
  · intro x hx hnx y hy
    rw [heq] at hnx hy
    set L := (List.insertionSort (fun a b : String => a ≤ b) names).reverse with hL
    have hxL : x ∈ L := by
      rw [hL, List.mem_reverse]
      exact ((List.perm_insertionSort (fun a b : String => a ≤ b) names).mem_iff).2 hx
    have hsplit : L = L.take 10 ++ L.drop 10 := (List.take_append_drop 10 L).symm
    have hxdrop : x ∈ L.drop 10 := by
      rcases List.mem_append.1 (hsplit ▸ hxL) with h | h
      · exact absurd h hnx
      · exact h
    have hcross := (List.pairwise_append.1 (hsplit ▸ hLsorted)).2.2
    exact hcross y hy x hxdrop

/-- Witness for C10: twelve snapshot directories report exactly the ten
lexicographically largest, descending. -/
theorem C10_versions_top_ten_witness :
    manyVersionsInfoEnv.versionsDirList =
      .ok ["v03", "v01", "v12", "v07", "v05", "v09", "v02", "v11", "v04", "v08", "v06", "v10"] ∧
    (getSchemaInfo manyVersionsInfoEnv).versions =
      ["v12", "v11", "v10", "v09", "v08", "v07", "v06", "v05", "v04", "v03"] ∧
    (getSchemaInfo manyVersionsInfoEnv).versions.length ≤ 10 := by
  have h := C10_versions_top_ten manyVersionsInfoEnv "metadata yaml text"
    (.obj [("generatedAt", .str "2024-01-01T00:01:00.000Z")])
    ["v03", "v01", "v12", "v07", "v05", "v09", "v02", "v11", "v04", "v08", "v06", "v10"]
    ["database-schema.yml", "metadata.yml"] rfl rfl rfl rfl
  refine ⟨rfl, ?_, h.2.1⟩
  rw [h.1]
  simp +decide [List.insertionSort, List.orderedInsert]

end SchemaGen
